import Mathlib

/-
Verification of the anemo connection manager core
(src/network/connection_manager.rs).

The registry `ActivePeersInner` is embedded as a state-passing development:
the `HashMap<PeerId, Connection>` becomes an association list, the broadcast
channel becomes an append-only log of `PeerEvent`s, and `Connection::close()`
becomes an append-only log of closed connections, so that event emission and
tear-down are observable in the state.
-/

/-- Peer identity: an opaque identity with a total order (the source derives
`Ord` on `PeerId`); modelled by the naturals. -/
abbrev PeerId := Nat

/-- `ConnectionOrigin` from the source: which side initiated the session. -/
inductive ConnectionOrigin where
  | Inbound
  | Outbound
  deriving DecidableEq, Repr

/-- Modelled from the spec: `crate::types::DisconnectReason` (src/types.rs is not
among the sources). It distinguishes at least `Requested` (replaced or explicitly
removed) from transport-level losses. -/
inductive DisconnectReason where
  | Requested
  | ConnectionLost
  deriving DecidableEq, Repr

/-- Modelled from the spec: `crate::types::PeerEvent` (src/types.rs is not among
the sources): `NewPeer(peer_id)` on admission, `LostPeer(peer_id, reason)` on
removal. -/
inductive PeerEvent where
  | NewPeer (peer_id : PeerId)
  | LostPeer (peer_id : PeerId) (reason : DisconnectReason)
  deriving DecidableEq, Repr

/-- Modelled from the spec: a `Connection` (crate::connection, not among the
sources) is a live session exposing `peer_id()`, `origin()` and the
process-local `stable_id()`; `close()` is modelled by logging the connection
into the registry state's `closed` list. Clones denote the same session, so a
clone is the same value here. -/
structure Connection where
  peer_id : PeerId
  origin : ConnectionOrigin
  stable_id : Nat
  deriving DecidableEq, Repr

/-- `NewConnection` (crate::endpoint): a freshly completed handshake wrapping
the `Connection` handle; the transient handler state it also carries is not
needed by the registry logic. -/
structure NewConnection where
  connection : Connection
  deriving DecidableEq, Repr

/-- The `connections: HashMap<PeerId, Connection>` field, as an association
list. All operations below mirror the `HashMap` entry API. -/
abbrev ConnMap := List (PeerId × Connection)

/-- `HashMap::get` / `Entry` lookup: the value at the key, if present. -/
def lookupConn : ConnMap → PeerId → Option Connection
  | [], _ => none
  | e :: rest, p => if e.1 = p then some e.2 else lookupConn rest p

/-- `Entry::insert` on an occupied entry replaces the held value;
on a vacant entry it adds the pair. -/
def insertConn : ConnMap → PeerId → Connection → ConnMap
  | [], p, c => [(p, c)]
  | e :: rest, p, c => if e.1 = p then (p, c) :: rest else e :: insertConn rest p c

/-- `HashMap::remove` / `Entry::remove_entry`: drop the entry at the key. -/
def eraseConn : ConnMap → PeerId → ConnMap
  | [], _ => []
  | e :: rest, p => if e.1 = p then rest else e :: eraseConn rest p

/-- State of `ActivePeersInner`: the connection map, the history of events sent
on the broadcast channel (oldest first), and the history of `close()` calls. -/
structure RegistryState where
  connections : ConnMap
  events : List PeerEvent
  closed : List Connection
  deriving DecidableEq, Repr

/-- `ActivePeersInner::send_event`: emission on the lossy broadcast channel,
modelled as appending to the event log. -/
def RegistryState.send_event (st : RegistryState) (e : PeerEvent) : RegistryState :=
  { st with events := st.events ++ [e] }

/-- `Connection::close()`: modelled as logging the closed connection. -/
def RegistryState.closeConn (st : RegistryState) (c : Connection) : RegistryState :=
  { st with closed := st.closed ++ [c] }

/-- `ActivePeersInner::simultaneous_dial_tie_breaking`: returns `true` if the
existing connection should be dropped and `false` if the new connection should
be dropped. -/
def simultaneous_dial_tie_breaking (own_peer_id remote_peer_id : PeerId)
    (existing_origin new_origin : ConnectionOrigin) : Bool :=
  match existing_origin, new_origin with
  | .Inbound, .Inbound => true
  | .Outbound, .Outbound => true
  | .Inbound, .Outbound => decide (remote_peer_id < own_peer_id)
  | .Outbound, .Inbound => decide (own_peer_id < remote_peer_id)

/-- `ActivePeersInner::add`: the admission protocol. Occupied entry: tie-break;
on replace, swap the entry, close the old connection, emit `LostPeer` then
`NewPeer`, return the new connection; otherwise close the new connection and
return `none` early. Vacant entry: insert, emit `NewPeer`, return it. -/
def ActivePeersInner.add (st : RegistryState) (own_peer_id : PeerId)
    (new_connection : NewConnection) : RegistryState × Option NewConnection :=
  let peer_id := new_connection.connection.peer_id
  match lookupConn st.connections peer_id with
  | some old_connection =>
    if simultaneous_dial_tie_breaking own_peer_id peer_id
        old_connection.origin new_connection.connection.origin then
      let st1 := { st with
        connections := insertConn st.connections peer_id new_connection.connection }
      let st2 := st1.closeConn old_connection
      let st3 := st2.send_event (.LostPeer peer_id .Requested)
      (st3.send_event (.NewPeer peer_id), some new_connection)
    else
      (st.closeConn new_connection.connection, none)
  | none =>
    let st1 := { st with
      connections := insertConn st.connections peer_id new_connection.connection }
    (st1.send_event (.NewPeer peer_id), some new_connection)

/-- `ActivePeersInner::remove`: unconditional removal; closes the held
connection and emits `LostPeer`; no-op when absent. -/
def ActivePeersInner.remove (st : RegistryState) (peer_id : PeerId)
    (reason : DisconnectReason) : RegistryState :=
  match lookupConn st.connections peer_id with
  | some connection =>
    let st1 := { st with connections := eraseConn st.connections peer_id }
    (st1.closeConn connection).send_event (.LostPeer peer_id reason)
  | none => st

/-- `ActivePeersInner::remove_with_stable_id`: removes, closes and emits
`LostPeer` only when the held connection's `stable_id` matches. -/
def ActivePeersInner.remove_with_stable_id (st : RegistryState) (peer_id : PeerId)
    (stable_id : Nat) (reason : DisconnectReason) : RegistryState :=
  match lookupConn st.connections peer_id with
  | some connection =>
    if connection.stable_id = stable_id then
      let st1 := { st with connections := eraseConn st.connections peer_id }
      (st1.closeConn connection).send_event (.LostPeer peer_id reason)
    else st
  | none => st

/-- `ActivePeersInner::peers`: snapshot of the admitted peer ids. A `&self`
method in the source; embedded as a state transformer returning the state it
received, so that the frame condition is statable. -/
def ActivePeersInner.peers (st : RegistryState) : List PeerId × RegistryState :=
  (st.connections.map Prod.fst, st)

/-- `ActivePeersInner::get`: clone of the current handle, if any; `&self`. -/
def ActivePeersInner.get (st : RegistryState) (peer_id : PeerId) :
    Option Connection × RegistryState :=
  (lookupConn st.connections peer_id, st)

/-- `ActivePeersInner::subscribe`: returns the current peers snapshot together
with a fresh broadcast receiver; the receiver handle itself is not modelled,
the snapshot and the (unchanged) state are. `&self`. -/
def ActivePeersInner.subscribe (st : RegistryState) : List PeerId × RegistryState :=
  ((ActivePeersInner.peers st).1, st)

/-- Error values carried in `Result` (the anemo `Error` type), opaque here. -/
structure NetError where
  code : Nat
  deriving DecidableEq, Repr

/-- The part of the `ConnectionManager` state that the admission path touches:
`endpoint.peer_id()` (stable for the manager's lifetime), the shared registry,
and the log of spawned `InboundRequestHandler`s. -/
structure ManagerState where
  own_peer_id : PeerId
  registry : RegistryState
  handlers : List NewConnection
  deriving DecidableEq, Repr

/-- `ConnectionManager::add_peer`: admit into the registry; when admission
returns the connection, spawn a request handler for it. -/
def ConnectionManager.add_peer (st : ManagerState) (new_connection : NewConnection) :
    ManagerState :=
  match ActivePeersInner.add st.registry st.own_peer_id new_connection with
  | (reg, some nc) => { st with registry := reg, handlers := st.handlers ++ [nc] }
  | (reg, none) => { st with registry := reg }

/-- `ConnectionManager::handle_connecting_result`: `has_oneshot` says whether a
reply channel was attached (`maybe_oneshot`); the second component of the
result is the value sent on it (`none` when no channel was attached). -/
def ConnectionManager.handle_connecting_result (st : ManagerState)
    (connecting_result : Except NetError NewConnection) (has_oneshot : Bool) :
    ManagerState × Option (Except NetError PeerId) :=
  match connecting_result with
  | .ok new_connection =>
    let peer_id := new_connection.connection.peer_id
    let st1 := ConnectionManager.add_peer st new_connection
    (st1, if has_oneshot then some (.ok peer_id) else none)
  | .error e =>
    (st, if has_oneshot then some (.error e) else none)

/-- Membership in the keys after an insertion: the inserted key or an old key. -/
theorem mem_keys_insertConn {m : ConnMap} {p x : PeerId} {c : Connection}
    (h : x ∈ (insertConn m p c).map Prod.fst) : x = p ∨ x ∈ m.map Prod.fst := by
  induction m with
  | nil =>
    simp [insertConn] at h
    exact Or.inl h
  | cons e rest ih =>
    by_cases hq : e.1 = p
    · simp only [insertConn, if_pos hq, List.map_cons, List.mem_cons] at h
      rcases h with h | h
      · exact Or.inl h
      · exact Or.inr (List.mem_cons_of_mem _ h)
    · simp only [insertConn, if_neg hq, List.map_cons, List.mem_cons] at h
      rcases h with h | h
      · exact Or.inr (h ▸ List.mem_cons_self _ _)
      · rcases ih h with h2 | h2
        · exact Or.inl h2
        · exact Or.inr (List.mem_cons_of_mem _ h2)

/-- Insertion preserves key uniqueness. -/
theorem keys_nodup_insertConn {m : ConnMap} {p : PeerId} {c : Connection}
    (h : (m.map Prod.fst).Nodup) : ((insertConn m p c).map Prod.fst).Nodup := by
  induction m with
  | nil => simp [insertConn]
  | cons e rest ih =>
    simp only [List.map_cons, List.nodup_cons] at h
    by_cases hq : e.1 = p
    · simp only [insertConn, if_pos hq, List.map_cons, List.nodup_cons]
      exact ⟨hq ▸ h.1, h.2⟩
    · simp only [insertConn, if_neg hq, List.map_cons, List.nodup_cons]
      refine ⟨fun hmem => ?_, ih h.2⟩
      rcases mem_keys_insertConn hmem with rfl | hmem2
      · exact hq rfl
      · exact h.1 hmem2

/-- Erasure yields a sublist of the map. -/
theorem eraseConn_sublist (m : ConnMap) (p : PeerId) : List.Sublist (eraseConn m p) m := by
  induction m with
  | nil => simp [eraseConn]
  | cons e rest ih =>
    by_cases hq : e.1 = p
    · simp [eraseConn, hq, List.sublist_cons_self]
    · simpa [eraseConn, hq] using ih.cons₂ e

/-- Erasure preserves key uniqueness. -/
theorem keys_nodup_eraseConn {m : ConnMap} {p : PeerId}
    (h : (m.map Prod.fst).Nodup) : ((eraseConn m p).map Prod.fst).Nodup :=
  List.Nodup.sublist ((eraseConn_sublist m p).map Prod.fst) h

/-- C1: for every pair of distinct peer ids, `simultaneous_dial_tie_breaking`
returns exactly the spec's rule table: `true` on (Inbound, Inbound) and on
(Outbound, Outbound); on (Inbound existing, Outbound new) `true` iff
`remote < own`; on (Outbound existing, Inbound new) `true` iff `own < remote`.
Being a Lean `def` of exactly its four arguments, it is total and pure by
construction. -/
theorem C1_tie_break_rule_table (own remote : PeerId) (_h : own ≠ remote) :
    simultaneous_dial_tie_breaking own remote .Inbound .Inbound = true ∧
    simultaneous_dial_tie_breaking own remote .Outbound .Outbound = true ∧
    (simultaneous_dial_tie_breaking own remote .Inbound .Outbound = true ↔ remote < own) ∧
    (simultaneous_dial_tie_breaking own remote .Outbound .Inbound = true ↔ own < remote) := by
  refine ⟨rfl, rfl, ?_, ?_⟩ <;> simp [simultaneous_dial_tie_breaking]

/-- Witness for C1 at `own = 2`, `remote = 1`. -/
theorem C1_tie_break_rule_table_witness :
    simultaneous_dial_tie_breaking 2 1 .Inbound .Inbound = true ∧
    simultaneous_dial_tie_breaking 2 1 .Outbound .Outbound = true ∧
    (simultaneous_dial_tie_breaking 2 1 .Inbound .Outbound = true ↔ 1 < 2) ∧
    (simultaneous_dial_tie_breaking 2 1 .Outbound .Inbound = true ↔ 2 < 1) :=
  C1_tie_break_rule_table 2 1 (by decide)

/-- C9: antisymmetry of the tie-breaker across the cross cases: swapping both
the peer ids and the (existing, new) origins leaves the peer-id comparison,
hence the result, unchanged (first two equalities); swapping the peer ids
alone flips the comparison, and flips the result (last two equalities).
Together: the result flips exactly when the peer-id comparison flips. -/
theorem C9_tie_break_antisymmetric_cross (own remote : PeerId) (h : own ≠ remote) :
    (simultaneous_dial_tie_breaking own remote .Inbound .Outbound =
      simultaneous_dial_tie_breaking remote own .Outbound .Inbound) ∧
    (simultaneous_dial_tie_breaking own remote .Outbound .Inbound =
      simultaneous_dial_tie_breaking remote own .Inbound .Outbound) ∧
    (simultaneous_dial_tie_breaking remote own .Inbound .Outbound =
      !simultaneous_dial_tie_breaking own remote .Inbound .Outbound) ∧
    (simultaneous_dial_tie_breaking remote own .Outbound .Inbound =
      !simultaneous_dial_tie_breaking own remote .Outbound .Inbound) := by
  refine ⟨rfl, rfl, ?_, ?_⟩
  · simp only [simultaneous_dial_tie_breaking, ← decide_not, decide_eq_decide]
    exact ⟨Nat.lt_asymm, fun hn => Nat.lt_of_le_of_ne (Nat.le_of_not_lt hn) h⟩
  · simp only [simultaneous_dial_tie_breaking, ← decide_not, decide_eq_decide]
    exact ⟨Nat.lt_asymm, fun hn => Nat.lt_of_le_of_ne (Nat.le_of_not_lt hn) (Ne.symm h)⟩

/-- Witness for C9 at `own = 2`, `remote = 1`. -/
theorem C9_tie_break_antisymmetric_cross_witness :
    (simultaneous_dial_tie_breaking 2 1 .Inbound .Outbound =
      simultaneous_dial_tie_breaking 1 2 .Outbound .Inbound) ∧
    (simultaneous_dial_tie_breaking 2 1 .Outbound .Inbound =
      simultaneous_dial_tie_breaking 1 2 .Inbound .Outbound) ∧
    (simultaneous_dial_tie_breaking 1 2 .Inbound .Outbound =
      !simultaneous_dial_tie_breaking 2 1 .Inbound .Outbound) ∧
    (simultaneous_dial_tie_breaking 1 2 .Outbound .Inbound =
      !simultaneous_dial_tie_breaking 2 1 .Outbound .Inbound) :=
  C9_tie_break_antisymmetric_cross 2 1 (by decide)

/-- C4: failing input for the self-dial claim, evaluated on the code. With an
empty registry, `own_peer_id = 5`, and a candidate connection whose peer id is
also `5`, `ActivePeersInner.add` inserts the connection, emits `NewPeer 5`,
closes nothing and returns `some` — it does not close the candidate and return
`none` as the claim (and the source's own TODO note) requires. -/
theorem C4_self_dial_admitted_by_code :
    ActivePeersInner.add ⟨[], [], []⟩ 5 ⟨⟨5, .Outbound, 1⟩⟩ =
      (⟨[(5, ⟨5, .Outbound, 1⟩)], [.NewPeer 5], []⟩, some ⟨⟨5, .Outbound, 1⟩⟩) := by
  rfl

/-- The connection map after `add` is either the insertion or unchanged. -/
theorem add_connections_cases (st : RegistryState) (own : PeerId) (nc : NewConnection) :
    (ActivePeersInner.add st own nc).1.connections =
      insertConn st.connections nc.connection.peer_id nc.connection ∨
    (ActivePeersInner.add st own nc).1.connections = st.connections := by
  cases hl : lookupConn st.connections nc.connection.peer_id with
  | none =>
    left
    simp [ActivePeersInner.add, hl, RegistryState.send_event]
  | some old =>
    by_cases hb : simultaneous_dial_tie_breaking own nc.connection.peer_id old.origin
      nc.connection.origin
    · left
      simp [ActivePeersInner.add, hl, hb, RegistryState.send_event,
        RegistryState.closeConn]
    · right
      simp [ActivePeersInner.add, hl, hb, RegistryState.closeConn]

/-- The connection map after `remove` is either the erasure or unchanged. -/
theorem remove_connections_cases (st : RegistryState) (p : PeerId)
    (r : DisconnectReason) :
    (ActivePeersInner.remove st p r).connections = eraseConn st.connections p ∨
    (ActivePeersInner.remove st p r).connections = st.connections := by
  unfold ActivePeersInner.remove
  cases lookupConn st.connections p with
  | some c => simp [RegistryState.send_event, RegistryState.closeConn]
  | none => simp

/-- The connection map after `remove_with_stable_id` is either the erasure or
unchanged. -/
theorem remove_with_stable_id_connections_cases (st : RegistryState) (p : PeerId)
    (s : Nat) (r : DisconnectReason) :
    (ActivePeersInner.remove_with_stable_id st p s r).connections =
      eraseConn st.connections p ∨
    (ActivePeersInner.remove_with_stable_id st p s r).connections = st.connections := by
  unfold ActivePeersInner.remove_with_stable_id
  cases lookupConn st.connections p with
  | some c =>
    by_cases hs : c.stable_id = s
    · simp [hs, RegistryState.send_event, RegistryState.closeConn]
    · simp [hs]
  | none => simp

/-- C2: admission. If the peer is absent, `add` inserts the connection, emits
exactly `NewPeer p`, closes nothing, and returns the new connection. If the
peer is present and the tie-breaker says replace, `add` swaps the entry to the
new connection, closes the old one, emits `LostPeer p Requested` followed by
`NewPeer p`, and returns the new connection. -/
theorem C2_admit_fresh_and_displacement (st : RegistryState) (own : PeerId)
    (nc : NewConnection) :
    (lookupConn st.connections nc.connection.peer_id = none →
      ActivePeersInner.add st own nc =
        ({ st with
            connections := insertConn st.connections nc.connection.peer_id nc.connection,
            events := st.events ++ [.NewPeer nc.connection.peer_id] }, some nc)) ∧
    (∀ old, lookupConn st.connections nc.connection.peer_id = some old →
      simultaneous_dial_tie_breaking own nc.connection.peer_id old.origin
        nc.connection.origin = true →
      ActivePeersInner.add st own nc =
        ({ st with
            connections := insertConn st.connections nc.connection.peer_id nc.connection,
            events := st.events ++ [.LostPeer nc.connection.peer_id .Requested,
                                    .NewPeer nc.connection.peer_id],
            closed := st.closed ++ [old] }, some nc)) := by
  constructor
  · intro hnone
    simp [ActivePeersInner.add, hnone, RegistryState.send_event]
  · intro old hsome hrep
    simp [ActivePeersInner.add, hsome, hrep, RegistryState.send_event,
      RegistryState.closeConn]

/-- Witness for C2: displacement at a concrete state (both origins Inbound, so
the tie-breaker says replace). -/
theorem C2_admit_fresh_and_displacement_witness :
    ActivePeersInner.add ⟨[(2, ⟨2, .Inbound, 3⟩)], [], []⟩ 1 ⟨⟨2, .Inbound, 4⟩⟩ =
      (⟨[(2, ⟨2, .Inbound, 4⟩)], [.LostPeer 2 .Requested, .NewPeer 2],
        [⟨2, .Inbound, 3⟩]⟩, some ⟨⟨2, .Inbound, 4⟩⟩) :=
  (C2_admit_fresh_and_displacement ⟨[(2, ⟨2, .Inbound, 3⟩)], [], []⟩ 1
    ⟨⟨2, .Inbound, 4⟩⟩).2 ⟨2, .Inbound, 3⟩ rfl rfl

/-- C3: when the peer is present and the tie-breaker decides not to replace,
`add` closes the new connection and returns `none`; the connection map and the
event log are exactly what they were before the call. -/
theorem C3_admit_reject_is_noop (st : RegistryState) (own : PeerId)
    (nc : NewConnection) (old : Connection)
    (hl : lookupConn st.connections nc.connection.peer_id = some old)
    (hb : simultaneous_dial_tie_breaking own nc.connection.peer_id old.origin
      nc.connection.origin = false) :
    ActivePeersInner.add st own nc =
      ({ st with closed := st.closed ++ [nc.connection] }, none) := by
  simp [ActivePeersInner.add, hl, hb, RegistryState.closeConn]

/-- Witness for C3: existing Outbound session for peer 5, new Inbound, own id 9;
the tie-breaker (9 < 5) says keep the existing session. -/
theorem C3_admit_reject_is_noop_witness :
    ActivePeersInner.add ⟨[(5, ⟨5, .Outbound, 3⟩)], [], []⟩ 9 ⟨⟨5, .Inbound, 4⟩⟩ =
      (⟨[(5, ⟨5, .Outbound, 3⟩)], [], [⟨5, .Inbound, 4⟩]⟩, none) :=
  C3_admit_reject_is_noop ⟨[(5, ⟨5, .Outbound, 3⟩)], [], []⟩ 9 ⟨⟨5, .Inbound, 4⟩⟩
    ⟨5, .Outbound, 3⟩ rfl rfl

/-- C5: with a reply channel attached, a completed handshake `Ok(nc)` makes the
event loop reply `Ok(peer_id)` whatever admission decided (the reply does not
depend on the registry state), and a failed handshake `Err(e)` forwards the
error and leaves the whole manager state, registry included, untouched. -/
theorem C5_reply_semantics (st : ManagerState) (nc : NewConnection) (e : NetError) :
    (ConnectionManager.handle_connecting_result st (.ok nc) true).2 =
      some (.ok nc.connection.peer_id) ∧
    ConnectionManager.handle_connecting_result st (.error e) true =
      (st, some (.error e)) :=
  ⟨rfl, rfl⟩

/-- C6: key uniqueness of the registry map is preserved by every mutation:
`add`, `remove`, and `remove_with_stable_id`. -/
theorem C6_at_most_one_connection_per_peer (st : RegistryState) (own p : PeerId)
    (nc : NewConnection) (s : Nat) (reason : DisconnectReason)
    (h : (st.connections.map Prod.fst).Nodup) :
    ((ActivePeersInner.add st own nc).1.connections.map Prod.fst).Nodup ∧
    ((ActivePeersInner.remove st p reason).connections.map Prod.fst).Nodup ∧
    ((ActivePeersInner.remove_with_stable_id st p s reason).connections.map
      Prod.fst).Nodup := by
  refine ⟨?_, ?_, ?_⟩
  · rcases add_connections_cases st own nc with hc | hc
    · rw [hc]; exact keys_nodup_insertConn h
    · rw [hc]; exact h
  · rcases remove_connections_cases st p reason with hc | hc
    · rw [hc]; exact keys_nodup_eraseConn h
    · rw [hc]; exact h
  · rcases remove_with_stable_id_connections_cases st p s reason with hc | hc
    · rw [hc]; exact keys_nodup_eraseConn h
    · rw [hc]; exact h

/-- Witness for C6 at a concrete one-entry state with distinct keys. -/
theorem C6_at_most_one_connection_per_peer_witness :
    ((ActivePeersInner.add ⟨[(1, ⟨1, .Inbound, 0⟩)], [], []⟩ 0
      ⟨⟨1, .Inbound, 9⟩⟩).1.connections.map Prod.fst).Nodup ∧
    ((ActivePeersInner.remove ⟨[(1, ⟨1, .Inbound, 0⟩)], [], []⟩ 1
      .Requested).connections.map Prod.fst).Nodup ∧
    ((ActivePeersInner.remove_with_stable_id ⟨[(1, ⟨1, .Inbound, 0⟩)], [], []⟩ 1 0
      .Requested).connections.map Prod.fst).Nodup :=
  C6_at_most_one_connection_per_peer ⟨[(1, ⟨1, .Inbound, 0⟩)], [], []⟩ 0 1
    ⟨⟨1, .Inbound, 9⟩⟩ 0 .Requested (by decide)

/-- C7: every connection an operation removes from the registry is closed:
`remove` closes the held connection, `remove_with_stable_id` closes it when the
stable id matches, and `add` closes the displaced connection when the
tie-breaker replaces it. -/
theorem C7_removed_connections_closed (st : RegistryState) (own p : PeerId)
    (s : Nat) (reason : DisconnectReason) (nc : NewConnection) (c : Connection) :
    (lookupConn st.connections p = some c →
      c ∈ (ActivePeersInner.remove st p reason).closed) ∧
    (lookupConn st.connections p = some c → c.stable_id = s →
      c ∈ (ActivePeersInner.remove_with_stable_id st p s reason).closed) ∧
    (lookupConn st.connections nc.connection.peer_id = some c →
      simultaneous_dial_tie_breaking own nc.connection.peer_id c.origin
        nc.connection.origin = true →
      c ∈ (ActivePeersInner.add st own nc).1.closed) := by
  refine ⟨?_, ?_, ?_⟩
  · intro hl
    simp [ActivePeersInner.remove, hl, RegistryState.send_event,
      RegistryState.closeConn]
  · intro hl hs
    simp [ActivePeersInner.remove_with_stable_id, hl, hs, RegistryState.send_event,
      RegistryState.closeConn]
  · intro hl hb
    simp [ActivePeersInner.add, hl, hb, RegistryState.send_event,
      RegistryState.closeConn]

/-- Witness for C7 at a concrete state: the held connection for peer 2 is closed
by `remove`, by a matching `remove_with_stable_id`, and by a displacing `add`. -/
theorem C7_removed_connections_closed_witness :
    (⟨2, .Inbound, 3⟩ : Connection) ∈
      (ActivePeersInner.remove ⟨[(2, ⟨2, .Inbound, 3⟩)], [], []⟩ 2 .Requested).closed ∧
    (⟨2, .Inbound, 3⟩ : Connection) ∈
      (ActivePeersInner.remove_with_stable_id ⟨[(2, ⟨2, .Inbound, 3⟩)], [], []⟩ 2 3
        .Requested).closed ∧
    (⟨2, .Inbound, 3⟩ : Connection) ∈
      (ActivePeersInner.add ⟨[(2, ⟨2, .Inbound, 3⟩)], [], []⟩ 1
        ⟨⟨2, .Inbound, 4⟩⟩).1.closed :=
  ⟨(C7_removed_connections_closed ⟨[(2, ⟨2, .Inbound, 3⟩)], [], []⟩ 1 2 3 .Requested
      ⟨⟨2, .Inbound, 4⟩⟩ ⟨2, .Inbound, 3⟩).1 rfl,
   (C7_removed_connections_closed ⟨[(2, ⟨2, .Inbound, 3⟩)], [], []⟩ 1 2 3 .Requested
      ⟨⟨2, .Inbound, 4⟩⟩ ⟨2, .Inbound, 3⟩).2.1 rfl rfl,
   (C7_removed_connections_closed ⟨[(2, ⟨2, .Inbound, 3⟩)], [], []⟩ 1 2 3 .Requested
      ⟨⟨2, .Inbound, 4⟩⟩ ⟨2, .Inbound, 3⟩).2.2 rfl rfl⟩

/-- C8: `remove_with_stable_id` removes the entry, closes the connection and
emits `LostPeer p reason` exactly when the held connection's stable id matches;
on a mismatch, and when the peer is absent, the state is returned unchanged
(no event, no close, same map). -/
theorem C8_remove_with_stable_id_behavior (st : RegistryState) (p : PeerId)
    (s : Nat) (reason : DisconnectReason) :
    (∀ c, lookupConn st.connections p = some c → c.stable_id = s →
      ActivePeersInner.remove_with_stable_id st p s reason =
        { st with connections := eraseConn st.connections p,
                  events := st.events ++ [.LostPeer p reason],
                  closed := st.closed ++ [c] }) ∧
    (∀ c, lookupConn st.connections p = some c → c.stable_id ≠ s →
      ActivePeersInner.remove_with_stable_id st p s reason = st) ∧
    (lookupConn st.connections p = none →
      ActivePeersInner.remove_with_stable_id st p s reason = st) := by
  refine ⟨?_, ?_, ?_⟩
  · intro c hl hs
    simp [ActivePeersInner.remove_with_stable_id, hl, hs, RegistryState.send_event,
      RegistryState.closeConn]
  · intro c hl hs
    simp [ActivePeersInner.remove_with_stable_id, hl, hs]
  · intro hl
    simp [ActivePeersInner.remove_with_stable_id, hl]

/-- Witness for C8: the stable id 10 matches and the entry is removed; with the
stale stable id 11 the call is a no-op. -/
theorem C8_remove_with_stable_id_behavior_witness :
    ActivePeersInner.remove_with_stable_id ⟨[(7, ⟨7, .Inbound, 10⟩)], [], []⟩ 7 10
      .Requested = ⟨[], [.LostPeer 7 .Requested], [⟨7, .Inbound, 10⟩]⟩ ∧
    ActivePeersInner.remove_with_stable_id ⟨[(7, ⟨7, .Inbound, 10⟩)], [], []⟩ 7 11
      .Requested = ⟨[(7, ⟨7, .Inbound, 10⟩)], [], []⟩ :=
  ⟨(C8_remove_with_stable_id_behavior ⟨[(7, ⟨7, .Inbound, 10⟩)], [], []⟩ 7 10
      .Requested).1 ⟨7, .Inbound, 10⟩ rfl rfl,
   (C8_remove_with_stable_id_behavior ⟨[(7, ⟨7, .Inbound, 10⟩)], [], []⟩ 7 11
      .Requested).2.1 ⟨7, .Inbound, 10⟩ rfl (by decide)⟩

/-- C10: the read operations `peers`, `get` and `subscribe` (all `&self` in the
source) return the registry state they received: the connection map and the
event log are unchanged and no event is emitted; `get` returns the stored
handle for the peer and `subscribe` returns the `peers` snapshot. -/
theorem C10_reads_leave_registry_unchanged (st : RegistryState) (p : PeerId) :
    ActivePeersInner.peers st = (st.connections.map Prod.fst, st) ∧
    ActivePeersInner.get st p = (lookupConn st.connections p, st) ∧
    ActivePeersInner.subscribe st = ((ActivePeersInner.peers st).1, st) ∧
    (ActivePeersInner.get st p).2.events = st.events ∧
    (ActivePeersInner.subscribe st).2.events = st.events :=
  ⟨rfl, rfl, rfl, rfl, rfl⟩
